import Mathlib

/-!
# Verification of the Support Supervision Maturity Model Dashboard engine

Shallow embedding of the core logic of `dashboard.py`: label cleaning,
theme inference, dictionary resolution, column metadata, scope summaries and
facility aggregation.  Machine floats do not occur: score and maturity cells
are embedded as rationals (all claim-relevant computations are exact in both
models).  Pandas/Python operations that can raise (`df[col]` on a missing
column, `DataFrame.dropna(subset=...)` with a missing subset column,
`DataFrame.to_dict(orient="index")` on a non-unique index, `dict[key]`) are
embedded in `Except String`, with the error message playing the role of the
Python exception.
-/

namespace Dashboard

/-! ## Configuration constants (dashboard.py, CONFIG section) -/

def FACILITY_COL : String := "Select the Facility Being Supervised"

def COUNTY_COL : String := "County"

def SUBCOUNTY_COL : String := "Subcounty"

def OVERALL_MATURITY_COL : String := "Overall Maturity (1=Bronze, 2=Silver, 3=Gold)"

def OVERALL_SCORE_COL : String := "Overall Total Score (%)"

/-- `THEME_SCORE_COLS` dict, embedded as an association list (insertion order
matches the source; `dict[key]` is embedded as `List.lookup`). -/
def THEME_SCORE_COLS : List (String × String) :=
  [("Summary", OVERALL_SCORE_COL),
   ("Service Delivery", "Service Delivery Score (%)"),
   ("Logistics and Cold Chain", "Cold Chain & Logistics Score (%)"),
   ("Data Quality", "Data Quality & Reporting Score (%)"),
   ("Community Linkage", "Community Linkages Score (%)"),
   ("HRH", "Human Resources & Training Score (%)"),
   ("Support Supervision", "Support Supervision Score (%)")]

def THEME_MATURITY_COLS : List (String × String) :=
  [("Summary", OVERALL_MATURITY_COL),
   ("Service Delivery", "Service Delivery Maturity (1=Bronze, 2=Silver, 3=Gold)"),
   ("Logistics and Cold Chain", "Cold Chain & Logistics Maturity (1=Bronze, 2=Silver, 3=Gold)"),
   ("Data Quality", "Data Quality & Reporting Maturity (1=Bronze, 2=Silver, 3=Gold)"),
   ("Community Linkage", "Community Linkages Maturity (1=Bronze, 2=Silver, 3=Gold)"),
   ("HRH", "Human Resources & Training Maturity (1=Bronze, 2=Silver, 3=Gold)"),
   ("Support Supervision", "Support Supervision Maturity (1=Bronze, 2=Silver, 3=Gold)")]

/-- `MATURITY_ICONS` dict.  The icon strings reproduce the character
content of the source file (a mojibake rendering of the medal emoji),
written here with explicit unicode escapes. -/
def MATURITY_ICONS : List (String × String) :=
  [("Bronze", "\u00f0\u0178\u00a5\u2030 Bronze"),
   ("Silver", "\u00f0\u0178\u00a5\u02c6 Silver"),
   ("Gold", "\u00f0\u0178\u00a5\u2021 Gold")]

/-! ## Character-level helpers for `clean_label`

`clean_label` (dashboard.py lines 56-61) does, in order:
`re.sub("<.*?>", "", s)`, `re.sub(r"\s+", " ", s)`, `s.strip()`.
We embed the three passes over `List Char`.  Python `\s` and `str.strip`
are modelled on their ASCII whitespace class (the data is ASCII). -/

/-- ASCII whitespace as matched by Python's `\s` / `str.strip`. -/
def pySpace (c : Char) : Bool :=
  c == ' ' || c == '\t' || c == '\n' || c == '\x0d' || c == '\x0b' || c == '\x0c'

/-- Does the list contain a `'>'` character? -/
def hasGt : List Char → Bool
  | [] => false
  | c :: t => (c == '>') || hasGt t

/-- `l` contains a `'<'` with some `'>'` strictly after it, i.e. the regex
`<.*?>` matches somewhere in `l`. -/
def hasTagMatch : List Char → Bool
  | [] => false
  | c :: t => ((c == '<') && hasGt t) || hasTagMatch t

/-- The span consumed by the non-greedy `.*?>` after a `'<'`: drop
characters through the first `'>'` (inclusive), provided it occurs before
any newline; `none` when a `'\n'` or the end of the string comes first —
Python's `.` (without `re.DOTALL`) matches every character except `'\n'`,
so a tag whose body spans a newline is not a match. -/
def dropThroughGt : List Char → Option (List Char)
  | [] => none
  | c :: t => if c == '>' then some t else if c == '\n' then none else dropThroughGt t

/-- Does a `'>'` occur before any `'\n'` (and before the end)?  This is
exactly when `dropThroughGt` succeeds, i.e. when `<.*?>` matches at a
`'<'` placed in front of the list. -/
def hasGtBeforeNl : List Char → Bool
  | [] => false
  | c :: t => if c == '>' then true else if c == '\n' then false else hasGtBeforeNl t

/-- Does a `'\n'` occur with a `'>'` somewhere after it? -/
def hasNlGt : List Char → Bool
  | [] => false
  | c :: t => ((c == '\n') && hasGt t) || hasNlGt t

/-- Does a `'<'` occur with a `'\n'` after it and a `'>'` after that?
Such a split tag is the one pattern the first cleaning pass leaves behind
that whitespace collapsing can turn into a fresh `<.*?>` match. -/
def hasLtNlGt : List Char → Bool
  | [] => false
  | c :: t => ((c == '<') && hasNlGt t) || hasLtNlGt t

/-- One left-to-right pass of `re.sub("<.*?>", "", ·)`: at each `'<'` that
has a `'>'` later in the same line (no intervening newline, since `.` does
not match `'\n'`), the non-greedy match up to the first `'>'` is removed and
scanning resumes after it; any other character is kept.  Written with an
explicit fuel argument (`fuel ≥ length` always holds at call sites) so that
it is structurally recursive and kernel-reducible. -/
def removeTagsAux : Nat → List Char → List Char
  | 0, _ => []
  | _, [] => []
  | fuel + 1, c :: t =>
    if c == '<' then
      match dropThroughGt t with
      | some r => removeTagsAux fuel r
      | none => c :: removeTagsAux fuel t
    else c :: removeTagsAux fuel t

def removeTags (l : List Char) : List Char := removeTagsAux l.length l

/-- `re.sub(r"\s+", " ", ·)`: each maximal whitespace run becomes a single
space.  The Boolean flag records whether we are inside a run whose first
character was already emitted. -/
def collapseWsGo : Bool → List Char → List Char
  | _, [] => []
  | inRun, c :: t =>
    if pySpace c then
      if inRun then collapseWsGo true t else ' ' :: collapseWsGo true t
    else c :: collapseWsGo false t

def collapseWs (l : List Char) : List Char := collapseWsGo false l

/-- Remove trailing ASCII whitespace (the right half of `str.strip`). -/
def dropTrailingWs : List Char → List Char
  | [] => []
  | c :: t =>
    let r := dropTrailingWs t
    if r.isEmpty && pySpace c then [] else c :: r

/-- `str.strip()`: remove leading and trailing whitespace. -/
def stripWs (l : List Char) : List Char := dropTrailingWs (l.dropWhile pySpace)

/-- `clean_label` (dashboard.py lines 56-61).  A missing input (`pd.isna`)
is `none`; otherwise remove `<.*?>` markup, collapse whitespace runs, strip. -/
def clean_label (s : Option String) : Option String :=
  s.map fun v => ⟨stripWs (collapseWs (removeTags v.data))⟩

/-! ## `infer_theme` (dashboard.py lines 64-81) -/

/-- `l.take p.length == p`: does `l` start with the pattern `p`?
(Python's `str.startswith`.) -/
def startsWithL (l p : List Char) : Bool := l.take p.length == p

/-- String-level wrapper for `startsWithL`. -/
def startsWithS (v p : String) : Bool := startsWithL v.data p.data

/-- `p` occurs as a contiguous substring of the second argument
(Python's `in` operator on strings). -/
def containsSub (p : List Char) : List Char → Bool
  | [] => p.isEmpty
  | c :: t => startsWithL (c :: t) p || containsSub p t

/-- Python's `str.lower()` (ASCII model, matching `Char.toLower`). -/
def pyLower (s : String) : String := ⟨s.data.map Char.toLower⟩

/-- `infer_theme` (dashboard.py lines 64-81).  `none` input models a
missing / non-string variable name (`isinstance(var_name, str)` is false);
the prefix rules are tried in source order before the case-insensitive
substring rule for "maturity" / "score_pct". -/
def inferTheme : Option String → Option String
  | none => none
  | some v =>
    if startsWithS v "sd_" then some "Service Delivery"
    else if startsWithS v "cc_" then some "Logistics & Cold Chain"
    else if startsWithS v "dq_" then some "Data Quality"
    else if startsWithS v "cl_" then some "Community Linkage"
    else if startsWithS v "hr_" then some "HRH"
    else if startsWithS v "ss_" then some "Support Supervision"
    else if containsSub "maturity".data (pyLower v).data
         || containsSub "score_pct".data (pyLower v).data then some "Summary"
    else none

/-! ## Dictionary resolution (dashboard.py lines 89-96) -/

/-- One row of the field dictionary.  Each attribute is `none` when the CSV
cell is missing (NaN) and the string value otherwise. -/
structure DictEntry where
  varName : Option String
  fieldLabel : Option String
  fieldType : Option String
deriving DecidableEq

/-- `dd.set_index("label_clean")[["Field Type", "Theme"]].dropna(how="all")
.to_dict(orient="index")` (dashboard.py lines 92-96): the cleaned label is
the key, the value is the (Field Type, Theme) pair; rows with both values
missing are dropped; pandas raises `ValueError` when the remaining index is
not unique (`DataFrame.to_dict` requires a unique index for
`orient="index"`), otherwise the result is a key-unique association list. -/
def buildDdMap (dd : List DictEntry) :
    Except String (List (Option String × Option String × Option String)) :=
  let rows := dd.map fun e => (clean_label e.fieldLabel, e.fieldType, inferTheme e.varName)
  let kept := rows.filter fun r => !(r.2.1 == none && r.2.2 == none)
  let keys : List (Option String) := kept.map (·.1)
  if keys.Nodup then Except.ok kept
  else Except.error "ValueError: DataFrame index must be unique for orient='index'."

/-- `dd_map.get(k)` for a string key `k` (a NaN index key never equals a
string key, matching pandas). -/
def lookupLabel (m : List (Option String × Option String × Option String)) (k : String) :
    Option (Option String × Option String) :=
  (m.find? fun r => r.1 == some k).map (·.2)

/-! ## Column metadata (dashboard.py lines 98-132) -/

/-- The fixed administrative / identifier columns skipped unconditionally. -/
def adminCols : List String :=
  [COUNTY_COL, FACILITY_COL, SUBCOUNTY_COL, "Unnamed: 0", "Survey Identifier",
   "Survey Timestamp", "Please enter your initials as the data collector",
   "Date of data collection"]

def catTypes : List String := ["yesno", "radio", "dropdown", "checkbox"]

def txtTypes : List String := ["text", "notes"]

/-- Characters before the first occurrence of the pattern `p`
(`str.split(p)[0]` for a non-empty `p`). -/
def beforeSub (p : List Char) : List Char → List Char
  | [] => []
  | c :: t => if startsWithL (c :: t) p then [] else c :: beforeSub p t

/-- `str(col).split("(choice=")[0].strip()` (dashboard.py line 112). -/
def baseLabel (col : String) : String := ⟨stripWs (beforeSub "(choice=".data col.data)⟩

structure ColumnMeta where
  column : String
  base_label : String
  field_type : Option String
  theme : Option String
  is_categorical : Bool
  is_open_ended : Bool
deriving DecidableEq

/-- The per-column metadata record (dashboard.py lines 112-130):
`info = dd_map.get(base) or dd_map.get(col)` (the stored dicts are always
truthy, so `or` is exactly `Option.orElse`); the field type is kept only
when it is a string (NaN becomes `None`); the flags test membership in the
fixed type lists. -/
def columnMeta (m : List (Option String × Option String × Option String))
    (col : String) : ColumnMeta :=
  let base := baseLabel col
  let info := (lookupLabel m base).orElse fun _ => lookupLabel m col
  let ft := info.bind (·.1)
  { column := col
    base_label := base
    field_type := ft
    theme := info.bind (·.2)
    is_categorical := match ft with | some t => catTypes.contains t | none => false
    is_open_ended := match ft with | some t => txtTypes.contains t | none => false }

/-- The loop over `df.columns` (dashboard.py lines 99-132): administrative
columns are skipped, every other column gets a `ColumnMeta`. -/
def buildMeta (cols : List String)
    (m : List (Option String × Option String × Option String)) : List ColumnMeta :=
  (cols.filter fun c => !(adminCols.contains c)).map (columnMeta m)

/-! ## Data frame model

A cell is missing (`NaN`), a string, or a number; a data frame is a column
schema plus rows of cells.  Score and maturity columns hold numbers (or
NaN) in the modelled data, so numeric extraction maps string cells to
`none` like missing ones. -/

inductive Cell
  | na
  | s (v : String)
  | n (v : ℚ)
deriving DecidableEq

structure DF where
  cols : List String
  rows : List (List Cell)
deriving DecidableEq

/-- The cell of `row` in the column named `c` (used only once presence of
`c` in `cols` has been established, matching how pandas is used). -/
def getCell (cols : List String) (row : List Cell) (c : String) : Cell :=
  match cols.findIdx? (· == c) with
  | some i => row.getD i Cell.na
  | none => Cell.na

/-- `df[c]` as a series: the column's cells, or a `KeyError` when `c` is not
in the schema. -/
def getColumn (df : DF) (c : String) : Except String (List Cell) :=
  if df.cols.contains c then Except.ok (df.rows.map fun r => getCell df.cols r c)
  else Except.error ("KeyError: " ++ c)

/-- Numeric view of a cell: `NaN` and string cells contribute nothing to a
numeric aggregation. -/
def cellToNum : Cell → Option ℚ
  | Cell.n v => some v
  | _ => none

def listMean (l : List ℚ) : ℚ := l.sum / l.length

/-- Python's builtin `round` with one argument: round half to even
(banker's rounding), which is what `round(mat_series.mean())` performs. -/
def roundHalfEven (q : ℚ) : ℤ :=
  let f := ⌊q⌋
  let r := q - f
  if r < 1 / 2 then f
  else if 1 / 2 < r then f + 1
  else if f % 2 = 0 then f else f + 1

/-- `maturity_label` (dashboard.py lines 151-153): the dict
`{1: "Bronze", 2: "Silver", 3: "Gold", 1.0: ..., 2.0: ..., 3.0: ...}`
looked up with `.get` (integer and float keys coincide in `ℚ`); any other
value yields `None`. -/
def maturity_label (x : ℚ) : Option String :=
  if x = 1 then some "Bronze"
  else if x = 2 then some "Silver"
  else if x = 3 then some "Gold"
  else none

/-- `maturity_label` applied to a raw cell (`mapping.get` on a non-numeric
value returns `None`). -/
def maturityLabelCell : Cell → Option String
  | Cell.n v => maturity_label v
  | _ => none

/-- `render_scope_summary` (dashboard.py lines 214-222), restricted to its
engine part: mean of the non-missing score values (`None` when all are
missing) and `maturity_label(round(mean))` of the non-missing maturity
values (`None` when all are missing).  Both branches are total: the source
raises nothing once the two series exist. -/
def renderScopeSummary (scoreCells matCells : List Cell) : Option ℚ × Option String :=
  let sv := scoreCells.filterMap cellToNum
  let mv := matCells.filterMap cellToNum
  (if sv.isEmpty then none else some (listMean sv),
   if mv.isEmpty then none
   else maturity_label ((roundHalfEven (listMean mv) : ℤ) : ℚ))

/-- `df[df[col] == v]` (pandas equality is value equality; `NaN == v` and a
numeric cell compared with a string are false). -/
def filterEq (df : DF) (c : String) (v : String) : DF :=
  { cols := df.cols, rows := df.rows.filter fun r => getCell df.cols r c == Cell.s v }

/-- `show_theme_summary_banner` (dashboard.py lines 236-251), engine part:
resolve the theme's score / maturity columns (`dict[...]` raises on an
unknown theme), filter to the selected county (`df[df[COUNTY_COL] == c]`
raises when `COUNTY_COL` is absent), and index the two series (`dfc[s_col]`
raises `KeyError` when the column is absent from the schema).  The first
component is the county-scope summary; the second is the subcounty-scope
summary when one is selected and the subcounty column exists (its series
lookups can no longer fail once the first block succeeded). -/
def showThemeSummaryBanner (df : DF) (theme county subcounty : String) :
    Except String ((Option ℚ × Option String) × Option (Option ℚ × Option String)) :=
  match THEME_SCORE_COLS.lookup theme with
  | none => Except.error ("KeyError: " ++ theme)
  | some s_col =>
  match THEME_MATURITY_COLS.lookup theme with
  | none => Except.error ("KeyError: " ++ theme)
  | some m_col =>
  if county != "All" && !(df.cols.contains COUNTY_COL) then
    Except.error ("KeyError: " ++ COUNTY_COL)
  else
    let dfc := if county != "All" then filterEq df COUNTY_COL county else df
    match getColumn dfc s_col with
    | Except.error e => Except.error e
    | Except.ok sSer =>
    match getColumn dfc m_col with
    | Except.error e => Except.error e
    | Except.ok mSer =>
    let second :=
      if subcounty != "All" && df.cols.contains SUBCOUNTY_COL then
        let dfs := filterEq df SUBCOUNTY_COL subcounty
        some (renderScopeSummary
          (dfs.rows.map fun r => getCell dfs.cols r s_col)
          (dfs.rows.map fun r => getCell dfs.cols r m_col))
      else none
    Except.ok (renderScopeSummary sSer mSer, second)

/-! ## Facility aggregation (dashboard.py lines 256-268) -/

structure AggRow where
  keyVals : List Cell
  maturityCategory : String
  score : Option ℚ
  maturityIcon : Option String
deriving DecidableEq

/-- Group keys in order of first appearance (fuel-structural).  The source
sorts the final table by score, so the pre-sort enumeration order of groups
only affects the order of equal scores, which `sort_values` (an unstable
quicksort) leaves unspecified anyway. -/
def firstKeysAux {K : Type} [DecidableEq K] : Nat → List K → List K
  | 0, _ => []
  | _, [] => []
  | fuel + 1, k :: t => k :: firstKeysAux fuel (t.filter fun x => !(x == k))

def firstKeys {K : Type} [DecidableEq K] (l : List K) : List K := firstKeysAux l.length l

/-- Sort key: the group's mean score, with a missing mean below every
number (pandas `sort_values` puts NaN last for either direction). -/
def scoreKey (a : AggRow) : WithBot ℚ :=
  match a.score with
  | none => ⊥
  | some q => (q : WithBot ℚ)

/-- Descending-by-mean-score order used for the final `sort_values`. -/
def aggLE (a b : AggRow) : Prop := scoreKey b ≤ scoreKey a

instance : DecidableRel aggLE := fun a b => inferInstanceAs (Decidable (scoreKey b ≤ scoreKey a))

instance : IsTotal AggRow aggLE :=
  ⟨fun a b => (le_total (scoreKey b) (scoreKey a)).elim Or.inl Or.inr⟩

instance : IsTrans AggRow aggLE :=
  ⟨fun _ _ _ hab hbc => le_trans hbc hab⟩

/-- `facility_maturity_table` (dashboard.py lines 256-268): resolve the
theme's columns, keep the columns present in the schema,
`dropna(subset=[m_col])` (raising `KeyError` when the maturity column is
absent), derive each row's `Maturity Category`, group by the present
administrative columns plus the category (pandas `groupby` drops rows with
a missing key component, hence rows whose maturity value has no tier),
take the mean of the score column per group (`KeyError` when the score
column is absent), attach the icon, and sort descending by mean score. -/
def facilityMaturityTable (df : DF) (theme : String) : Except String (List AggRow) :=
  match THEME_SCORE_COLS.lookup theme with
  | none => Except.error ("KeyError: " ++ theme)
  | some s_col =>
  match THEME_MATURITY_COLS.lookup theme with
  | none => Except.error ("KeyError: " ++ theme)
  | some m_col =>
  let cols0 := [COUNTY_COL, SUBCOUNTY_COL, FACILITY_COL, s_col, m_col].filter df.cols.contains
  if !(cols0.contains m_col) then Except.error ("KeyError: " ++ m_col)
  else
    let rows1 := df.rows.filter fun r => !(getCell df.cols r m_col == Cell.na)
    if !(cols0.contains s_col) then Except.error ("KeyError: " ++ s_col)
    else
      let keyCols := [COUNTY_COL, SUBCOUNTY_COL, FACILITY_COL].filter df.cols.contains
      let keyed : List ((List Cell × String) × List Cell) := rows1.filterMap fun r =>
        let kv := keyCols.map (getCell df.cols r)
        match maturityLabelCell (getCell df.cols r m_col) with
        | none => none
        | some cat => if kv.contains Cell.na then none else some ((kv, cat), r)
      let keys := firstKeys (keyed.map (·.1))
      let agg := keys.map fun k =>
        let grp := keyed.filter fun p => p.1 == k
        let scores := grp.filterMap fun p => cellToNum (getCell df.cols p.2 s_col)
        { keyVals := k.1
          maturityCategory := k.2
          score := if scores.isEmpty then none else some (listMean scores)
          maturityIcon := MATURITY_ICONS.lookup k.2 : AggRow }
      Except.ok (List.insertionSort aggLE agg)

/-! ## Binary-response normalization (dashboard.py lines 158-196) -/

/-- The inner `normalize` of `show_categorical_chart`: `None` for a missing
response; otherwise trim and lowercase (`str(resp).strip().lower()`), map
the yes-forms to `"Yes"`, the no-forms to `"No"`, the empty string to
`None`, and return anything else unchanged.  Responses are modelled as
optional strings (chart columns are string-typed). -/
def normalizeResp (resp : Option String) : Option String :=
  match resp with
  | none => none
  | some v =>
    let t := pyLower ⟨stripWs v.data⟩
    if t = "yes" ∨ t = "y" ∨ t = "1" then some "Yes"
    else if t = "no" ∨ t = "n" ∨ t = "0" then some "No"
    else if t = "" then none
    else some v

/-! ## Normal-form predicates for cleaned labels

A cleaned label contains no `<...>` tag match, all its whitespace characters
are plain spaces, no two whitespace characters are adjacent, and it neither
starts nor ends with whitespace.  These predicates characterise the image of
`clean_label` and drive the idempotence proof. -/

/-- Every whitespace character is a plain space. -/
def wsAllSpace : List Char → Bool
  | [] => true
  | c :: t => (!pySpace c || c == ' ') && wsAllSpace t

/-- The head (if any) is not whitespace. -/
def headNotWs : List Char → Bool
  | [] => true
  | c :: _ => !pySpace c

/-- The last character (if any) is not whitespace. -/
def lastNotWs : List Char → Bool
  | [] => true
  | [c] => !pySpace c
  | _ :: c :: t => lastNotWs (c :: t)

/-- `a` and the head of the list are not both whitespace. -/
def okPair (a : Char) : List Char → Bool
  | [] => true
  | b :: _ => !(pySpace a && pySpace b)

/-- No two adjacent whitespace characters. -/
def noDoubleWs : List Char → Bool
  | [] => true
  | [_] => true
  | a :: b :: t => (!(pySpace a && pySpace b)) && noDoubleWs (b :: t)

/-- Whitespace normalization map: each whitespace character becomes a plain
space, every other character is unchanged. -/
def spFun (c : Char) : Char := if pySpace c then ' ' else c

/-- The core transformation of `clean_label` on character lists. -/
def cleanCore (l : List Char) : List Char := stripWs (collapseWs (removeTags l))

/-! ## Concrete fixtures used to instantiate the verified statements -/

/-- A dataset schema lacking the Summary score column. -/
def c1dfNoScore : DF :=
  { cols := [COUNTY_COL, FACILITY_COL, OVERALL_MATURITY_COL],
    rows := [[Cell.s "Embu", Cell.s "FacA", Cell.n 2]] }

/-- A dataset schema lacking the Summary maturity column. -/
def c1dfNoMaturity : DF :=
  { cols := [COUNTY_COL, FACILITY_COL, OVERALL_SCORE_COL],
    rows := [[Cell.s "Embu", Cell.s "FacA", Cell.n 80]] }

/-- A dictionary table in which the same cleaned label occurs in two rows,
neither of which is dropped (both carry a field type and an inferred theme). -/
def c3dd : List DictEntry :=
  [{ varName := some "sd_q1", fieldLabel := some "Leadership support", fieldType := some "yesno" },
   { varName := some "cc_q2", fieldLabel := some "Leadership support", fieldType := some "radio" }]

/-- Dictionary with a single `cc_fridge_temp` yes/no entry. -/
def c4dd : List DictEntry :=
  [{ varName := some "cc_fridge_temp", fieldLabel := some "cc_fridge_temp",
     fieldType := some "yesno" }]

/-- The resolved mapping of `c4dd`. -/
def c4map : List (Option String × Option String × Option String) :=
  [(some "cc_fridge_temp", some "yesno", some "Logistics & Cold Chain")]

/-- A dataset with the full Summary schema and no rows. -/
def c5df : DF :=
  { cols := [COUNTY_COL, FACILITY_COL, OVERALL_SCORE_COL, OVERALL_MATURITY_COL], rows := [] }

/-- Two facilities with mean scores 85 and 60, both Bronze. -/
def c8df : DF :=
  { cols := [COUNTY_COL, FACILITY_COL, OVERALL_SCORE_COL, OVERALL_MATURITY_COL],
    rows := [[Cell.s "Embu", Cell.s "FacA", Cell.n 85, Cell.n 1],
             [Cell.s "Embu", Cell.s "FacB", Cell.n 60, Cell.n 1]] }

/-- The aggregate table of `c8df` for the Summary theme. -/
def c8out : List AggRow :=
  [{ keyVals := [Cell.s "Embu", Cell.s "FacA"], maturityCategory := "Bronze",
     score := some 85, maturityIcon := some "\u00f0\u0178\u00a5\u2030 Bronze" },
   { keyVals := [Cell.s "Embu", Cell.s "FacB"], maturityCategory := "Bronze",
     score := some 60, maturityIcon := some "\u00f0\u0178\u00a5\u2030 Bronze" }]

end Dashboard

deriving instance DecidableEq for Except

namespace Dashboard

/-! ## Lemmas: tag removal -/

theorem pySpace_ne_lt {c : Char} (h : pySpace c = true) : (c == '<') = false := by
  simp only [pySpace, Bool.or_eq_true, beq_iff_eq] at h
  rcases h with ((((h | h) | h) | h) | h) | h <;> subst h <;> decide

theorem pySpace_ne_gt {c : Char} (h : pySpace c = true) : (c == '>') = false := by
  simp only [pySpace, Bool.or_eq_true, beq_iff_eq] at h
  rcases h with ((((h | h) | h) | h) | h) | h <;> subst h <;> decide

theorem dropThroughGt_none {l : List Char} (h : hasGt l = false) :
    dropThroughGt l = none := by
  induction l with
  | nil => rfl
  | cons c t ih =>
    simp only [hasGt, Bool.or_eq_false_iff] at h
    simp only [dropThroughGt, h.1, Bool.false_eq_true, if_false]
    by_cases hn : (c == '\n') = true
    · rw [if_pos hn]
    · rw [if_neg hn]
      exact ih h.2

theorem dropThroughGt_length {l r : List Char} (h : dropThroughGt l = some r) :
    r.length < l.length := by
  induction l generalizing r with
  | nil => simp [dropThroughGt] at h
  | cons c t ih =>
    by_cases hc : (c == '>') = true
    · simp only [dropThroughGt, hc, if_true] at h
      cases h
      simp
    · simp only [dropThroughGt, hc, if_false, Bool.not_eq_true] at h
      by_cases hn : (c == '\n') = true
      · rw [if_pos hn] at h
        cases h
      · rw [if_neg hn] at h
        exact Nat.lt_trans (ih h) (by simp)

theorem dropThroughGt_suffix {l r : List Char} (h : dropThroughGt l = some r) :
    r.Sublist l := by
  induction l generalizing r with
  | nil => simp [dropThroughGt] at h
  | cons c t ih =>
    by_cases hc : (c == '>') = true
    · simp only [dropThroughGt, hc, if_true] at h
      injection h with h
      subst h
      exact List.sublist_cons_self c t
    · simp only [dropThroughGt, hc, if_false] at h
      by_cases hn : (c == '\n') = true
      · rw [if_pos hn] at h
        cases h
      · rw [if_neg hn] at h
        exact (ih h).trans (List.sublist_cons_self c t)

theorem hasGt_mono {l' l : List Char} (h : l'.Sublist l) (h' : hasGt l' = true) :
    hasGt l = true := by
  induction h with
  | slnil => exact h'
  | cons a _ ih => simp only [hasGt, Bool.or_eq_true]; exact Or.inr (ih h')
  | cons₂ a h ih =>
    simp only [hasGt, Bool.or_eq_true] at h' ⊢
    exact h'.imp id ih

theorem hasGt_sublist_false {l' l : List Char} (h : l'.Sublist l) (h' : hasGt l = false) :
    hasGt l' = false := by
  cases hg : hasGt l' with
  | false => rfl
  | true => rw [hasGt_mono h hg] at h'; cases h'

theorem hasTagMatch_mono {l' l : List Char} (h : l'.Sublist l) (h' : hasTagMatch l' = true) :
    hasTagMatch l = true := by
  induction h with
  | slnil => exact h'
  | cons a _ ih => simp only [hasTagMatch, Bool.or_eq_true]; exact Or.inr (ih h')
  | cons₂ a h ih =>
    simp only [hasTagMatch, Bool.or_eq_true, Bool.and_eq_true] at h' ⊢
    refine h'.imp (fun ⟨h1, h2⟩ => ⟨h1, hasGt_mono h h2⟩) ih

theorem hasTagMatch_sublist_false {l' l : List Char} (h : l'.Sublist l)
    (h' : hasTagMatch l = false) : hasTagMatch l' = false := by
  cases hg : hasTagMatch l' with
  | false => rfl
  | true => rw [hasTagMatch_mono h hg] at h'; cases h'

theorem removeTagsAux_sublist : ∀ (fuel : Nat) (l : List Char), (removeTagsAux fuel l).Sublist l
  | 0, l => by simp [removeTagsAux]
  | _ + 1, [] => by simp [removeTagsAux]
  | fuel + 1, c :: t => by
    by_cases hc : (c == '<') = true
    · simp only [removeTagsAux, hc, if_true]
      cases hd : dropThroughGt t with
      | some r =>
        exact ((removeTagsAux_sublist fuel r).trans (dropThroughGt_suffix hd)).trans
          (List.sublist_cons_self c t)
      | none => exact (removeTagsAux_sublist fuel t).cons₂ c
    · simp only [removeTagsAux, hc, if_false]
      exact (removeTagsAux_sublist fuel t).cons₂ c

theorem hasGtBeforeNl_false_of_dropThroughGt_none {l : List Char}
    (h : dropThroughGt l = none) : hasGtBeforeNl l = false := by
  induction l with
  | nil => rfl
  | cons c t ih =>
    by_cases hc : (c == '>') = true
    · simp [dropThroughGt, hc] at h
    · simp only [dropThroughGt, hc, if_false] at h
      by_cases hn : (c == '\n') = true
      · simp [hasGtBeforeNl, hc, hn]
      · rw [if_neg hn] at h
        simp [hasGtBeforeNl, hc, hn, ih h]

theorem hasGt_false_of_no_early_no_late {l : List Char} (h1 : hasGtBeforeNl l = false)
    (h2 : hasNlGt l = false) : hasGt l = false := by
  induction l with
  | nil => rfl
  | cons c t ih =>
    simp only [hasNlGt, Bool.or_eq_false_iff, Bool.and_eq_false_iff] at h2
    by_cases hc : (c == '>') = true
    · simp [hasGtBeforeNl, hc] at h1
    · simp only [hasGtBeforeNl, hc, Bool.false_eq_true, if_false] at h1
      by_cases hn : (c == '\n') = true
      · have hgt : hasGt t = false := h2.1.resolve_left (by simp [hn])
        simp [hasGt, hc, hgt]
      · rw [if_neg hn] at h1
        simp [hasGt, hc, ih h1 h2.2]

theorem hasNlGt_mono {l' l : List Char} (h : l'.Sublist l) (h' : hasNlGt l' = true) :
    hasNlGt l = true := by
  induction h with
  | slnil => exact h'
  | cons a _ ih => simp only [hasNlGt, Bool.or_eq_true]; exact Or.inr (ih h')
  | cons₂ a h ih =>
    simp only [hasNlGt, Bool.or_eq_true, Bool.and_eq_true] at h' ⊢
    refine h'.imp (fun ⟨ha, hg⟩ => ⟨ha, hasGt_mono h hg⟩) ih

theorem hasLtNlGt_mono {l' l : List Char} (h : l'.Sublist l) (h' : hasLtNlGt l' = true) :
    hasLtNlGt l = true := by
  induction h with
  | slnil => exact h'
  | cons a _ ih => simp only [hasLtNlGt, Bool.or_eq_true]; exact Or.inr (ih h')
  | cons₂ a h ih =>
    simp only [hasLtNlGt, Bool.or_eq_true, Bool.and_eq_true] at h' ⊢
    refine h'.imp (fun ⟨ha, hg⟩ => ⟨ha, hasNlGt_mono h hg⟩) ih

theorem hasLtNlGt_sublist_false {l' l : List Char} (h : l'.Sublist l)
    (h' : hasLtNlGt l = false) : hasLtNlGt l' = false := by
  cases hg : hasLtNlGt l' with
  | false => rfl
  | true => rw [hasLtNlGt_mono h hg] at h'; cases h'

theorem hasTagMatch_removeTagsAux :
    ∀ (fuel : Nat) (l : List Char), l.length ≤ fuel → hasLtNlGt l = false →
      hasTagMatch (removeTagsAux fuel l) = false
  | 0, l, h, _ => by
    have : l = [] := List.length_eq_zero.mp (Nat.le_zero.mp h)
    subst this; rfl
  | _ + 1, [], _, _ => rfl
  | fuel + 1, c :: t, h, hsp => by
    have ht : t.length ≤ fuel := Nat.le_of_succ_le_succ (by simpa using h)
    simp only [hasLtNlGt, Bool.or_eq_false_iff, Bool.and_eq_false_iff] at hsp
    by_cases hc : (c == '<') = true
    · simp only [removeTagsAux, hc, if_true]
      cases hd : dropThroughGt t with
      | some r =>
        exact hasTagMatch_removeTagsAux fuel r
          (Nat.le_of_lt (Nat.lt_of_lt_of_le (dropThroughGt_length hd) ht))
          (hasLtNlGt_sublist_false (dropThroughGt_suffix hd) hsp.2)
      | none =>
        have hnl : hasNlGt t = false := hsp.1.resolve_left (by simp [hc])
        have h1 : hasTagMatch (removeTagsAux fuel t) = false :=
          hasTagMatch_removeTagsAux fuel t ht hsp.2
        have h2 : hasGt (removeTagsAux fuel t) = false :=
          hasGt_sublist_false (removeTagsAux_sublist fuel t)
            (hasGt_false_of_no_early_no_late
              (hasGtBeforeNl_false_of_dropThroughGt_none hd) hnl)
        simp [hasTagMatch, h1, h2]
    · simp only [removeTagsAux, hc, if_false]
      have h1 : hasTagMatch (removeTagsAux fuel t) = false :=
        hasTagMatch_removeTagsAux fuel t ht hsp.2
      simp [hasTagMatch, h1, hc]

theorem hasTagMatch_removeTags {l : List Char} (h : hasLtNlGt l = false) :
    hasTagMatch (removeTags l) = false :=
  hasTagMatch_removeTagsAux l.length l (Nat.le_refl _) h

theorem removeTagsAux_of_tagFree :
    ∀ (fuel : Nat) (l : List Char), l.length ≤ fuel → hasTagMatch l = false →
      removeTagsAux fuel l = l
  | 0, l, h, _ => by
    have : l = [] := List.length_eq_zero.mp (Nat.le_zero.mp h)
    subst this; rfl
  | _ + 1, [], _, _ => rfl
  | fuel + 1, c :: t, h, htf => by
    have ht : t.length ≤ fuel := Nat.le_of_succ_le_succ (by simpa using h)
    simp only [hasTagMatch, Bool.or_eq_false_iff, Bool.and_eq_false_iff] at htf
    by_cases hc : (c == '<') = true
    · have hgt : hasGt t = false := htf.1.resolve_left (by simp [hc])
      simp only [removeTagsAux, hc, if_true, dropThroughGt_none hgt]
      rw [removeTagsAux_of_tagFree fuel t ht htf.2]
    · have hc' : (c == '<') = false := by simpa using hc
      simp only [removeTagsAux, hc', Bool.false_eq_true, if_false]
      rw [removeTagsAux_of_tagFree fuel t ht htf.2]

theorem removeTags_of_tagFree {l : List Char} (h : hasTagMatch l = false) :
    removeTags l = l :=
  removeTagsAux_of_tagFree l.length l (Nat.le_refl _) h

/-! ## Lemmas: whitespace collapsing -/

theorem okPair_of_headNotWs {a : Char} {l : List Char} (h : headNotWs l = true) :
    okPair a l = true := by
  cases l with
  | nil => rfl
  | cons b t =>
    simp only [headNotWs, Bool.not_eq_true'] at h
    simp [okPair, h]

theorem okPair_of_not_ws {a : Char} {l : List Char} (h : pySpace a = false) :
    okPair a l = true := by
  cases l with
  | nil => rfl
  | cons b t => simp [okPair, h]

theorem noDoubleWs_cons (a : Char) (l : List Char) :
    noDoubleWs (a :: l) = (okPair a l && noDoubleWs l) := by
  cases l with
  | nil => rfl
  | cons b t => rfl

theorem lastNotWs_cons_cons (a b : Char) (t : List Char) :
    lastNotWs (a :: b :: t) = lastNotWs (b :: t) := rfl

theorem hasGt_map_spFun (l : List Char) : hasGt (l.map spFun) = hasGt l := by
  induction l with
  | nil => rfl
  | cons c t ih =>
    have hc : (spFun c == '>') = (c == '>') := by
      by_cases hs : pySpace c = true
      · simp [spFun, hs, pySpace_ne_gt hs]
      · simp [spFun, hs]
    simp [hasGt, hc, ih]

theorem hasTagMatch_map_spFun (l : List Char) : hasTagMatch (l.map spFun) = hasTagMatch l := by
  induction l with
  | nil => rfl
  | cons c t ih =>
    have hc : (spFun c == '<') = (c == '<') := by
      by_cases hs : pySpace c = true
      · simp [spFun, hs, pySpace_ne_lt hs]
      · simp [spFun, hs]
    simp [hasTagMatch, hc, ih, hasGt_map_spFun]

theorem collapseWsGo_sublist_map :
    ∀ (flag : Bool) (l : List Char), (collapseWsGo flag l).Sublist (l.map spFun)
  | _, [] => by simp [collapseWsGo]
  | flag, c :: t => by
    by_cases hs : pySpace c = true
    · have hmap : (c :: t).map spFun = ' ' :: t.map spFun := by simp [spFun, hs]
      rw [hmap]
      cases flag with
      | true =>
        simp only [collapseWsGo, hs, if_true]
        exact (collapseWsGo_sublist_map true t).trans (List.sublist_cons_self _ _)
      | false =>
        simp only [collapseWsGo, hs, if_true]
        exact (collapseWsGo_sublist_map true t).cons₂ ' '
    · have hmap : (c :: t).map spFun = c :: t.map spFun := by simp [spFun, hs]
      rw [hmap]
      simp only [collapseWsGo, hs, Bool.false_eq_true, if_false]
      exact (collapseWsGo_sublist_map false t).cons₂ c

theorem hasTagMatch_collapseWs {l : List Char} (h : hasTagMatch l = false) :
    hasTagMatch (collapseWs l) = false := by
  refine hasTagMatch_sublist_false (collapseWsGo_sublist_map false l) ?_
  rw [hasTagMatch_map_spFun]
  exact h

theorem wsAllSpace_collapseWsGo : ∀ (flag : Bool) (l : List Char),
    wsAllSpace (collapseWsGo flag l) = true
  | _, [] => rfl
  | flag, c :: t => by
    by_cases hs : pySpace c = true
    · cases flag with
      | true =>
        simp only [collapseWsGo, hs, if_true]
        exact wsAllSpace_collapseWsGo true t
      | false =>
        simp only [collapseWsGo, hs, if_true]
        simp [wsAllSpace, wsAllSpace_collapseWsGo true t]
    · simp only [collapseWsGo, hs, Bool.false_eq_true, if_false]
      simp [wsAllSpace, hs, wsAllSpace_collapseWsGo false t]

theorem collapseWsGo_props : ∀ (l : List Char),
    noDoubleWs (collapseWsGo false l) = true ∧ noDoubleWs (collapseWsGo true l) = true ∧
      headNotWs (collapseWsGo true l) = true
  | [] => by exact ⟨rfl, rfl, rfl⟩
  | c :: t => by
    obtain ⟨ih1, ih2, ih3⟩ := collapseWsGo_props t
    by_cases hs : pySpace c = true
    · refine ⟨?_, ?_, ?_⟩
      · simp only [collapseWsGo, hs, if_true, Bool.false_eq_true, if_false]
        rw [noDoubleWs_cons, okPair_of_headNotWs ih3, ih2]
        rfl
      · simp only [collapseWsGo, hs, if_true]
        exact ih2
      · simp only [collapseWsGo, hs, if_true]
        exact ih3
    · have hs' : pySpace c = false := by simpa using hs
      refine ⟨?_, ?_, ?_⟩ <;> simp only [collapseWsGo, hs', Bool.false_eq_true, if_false]
      · rw [noDoubleWs_cons, okPair_of_not_ws hs', ih1]
        rfl
      · rw [noDoubleWs_cons, okPair_of_not_ws hs', ih1]
        rfl
      · simp [headNotWs, hs']

theorem headNotWs_of_okPair_ws {a : Char} {t : List Char} (ha : pySpace a = true)
    (h : okPair a t = true) : headNotWs t = true := by
  cases t with
  | nil => rfl
  | cons b u =>
    simp only [okPair, ha, Bool.true_and, Bool.not_eq_true'] at h
    simp [headNotWs, h]

theorem collapseWsGo_fix : ∀ (l : List Char), wsAllSpace l = true → noDoubleWs l = true →
    collapseWsGo false l = l ∧ (headNotWs l = true → collapseWsGo true l = l)
  | [], _, _ => ⟨rfl, fun _ => rfl⟩
  | c :: t, hws, hnd => by
    simp only [wsAllSpace, Bool.and_eq_true] at hws
    rw [noDoubleWs_cons, Bool.and_eq_true] at hnd
    by_cases hs : pySpace c = true
    · have hc : c = ' ' := by
        have := hws.1
        simp only [hs, Bool.not_true, Bool.false_or, beq_iff_eq] at this
        exact this
      have hht : headNotWs t = true := headNotWs_of_okPair_ws hs hnd.1
      have hfix := (collapseWsGo_fix t hws.2 hnd.2).2 hht
      constructor
      · subst hc
        simp only [collapseWsGo, hs, if_true, Bool.false_eq_true, if_false, hfix]
      · intro hh
        simp [headNotWs, hs] at hh
    · have hs' : pySpace c = false := by simpa using hs
      have := (collapseWsGo_fix t hws.2 hnd.2).1
      constructor
      · simp only [collapseWsGo, hs', Bool.false_eq_true, if_false, this]
      · intro _
        simp only [collapseWsGo, hs', Bool.false_eq_true, if_false, this]

/-! ## Lemmas: stripping -/

theorem headNotWs_dropWhile (l : List Char) : headNotWs (l.dropWhile pySpace) = true := by
  induction l with
  | nil => rfl
  | cons c t ih =>
    by_cases hs : pySpace c = true
    · rw [List.dropWhile_cons, if_pos hs]
      exact ih
    · have hs' : pySpace c = false := by simpa using hs
      rw [List.dropWhile_cons, if_neg (by simp [hs'])]
      simp [headNotWs, hs']

theorem noDoubleWs_of_cons {a : Char} {l : List Char} (h : noDoubleWs (a :: l) = true) :
    noDoubleWs l = true := by
  rw [noDoubleWs_cons, Bool.and_eq_true] at h
  exact h.2

theorem noDoubleWs_dropWhile {l : List Char} (h : noDoubleWs l = true) :
    noDoubleWs (l.dropWhile pySpace) = true := by
  induction l with
  | nil => exact h
  | cons c t ih =>
    by_cases hs : pySpace c = true
    · rw [List.dropWhile_cons, if_pos hs]
      exact ih (noDoubleWs_of_cons h)
    · rw [List.dropWhile_cons, if_neg (by simpa using hs)]
      exact h

theorem wsAllSpace_sublist : ∀ {l' l : List Char}, l'.Sublist l → wsAllSpace l = true →
    wsAllSpace l' = true := by
  intro l' l h
  induction h with
  | slnil => exact fun h => h
  | cons a _ ih =>
    intro hw
    simp only [wsAllSpace, Bool.and_eq_true] at hw
    exact ih hw.2
  | cons₂ a _ ih =>
    intro hw
    simp only [wsAllSpace, Bool.and_eq_true] at hw ⊢
    exact ⟨hw.1, ih hw.2⟩

theorem dropWhile_fix {l : List Char} (h : headNotWs l = true) :
    l.dropWhile pySpace = l := by
  cases l with
  | nil => rfl
  | cons c t =>
    simp only [headNotWs, Bool.not_eq_true'] at h
    rw [List.dropWhile_cons, if_neg (by simp [h])]

theorem dropWhile_sublist_self (l : List Char) : (l.dropWhile pySpace).Sublist l := by
  induction l with
  | nil => exact List.Sublist.refl _
  | cons c t ih =>
    by_cases hs : pySpace c = true
    · rw [List.dropWhile_cons, if_pos hs]
      exact ih.trans (List.sublist_cons_self c t)
    · rw [List.dropWhile_cons, if_neg (by simpa using hs)]

theorem dtw_cons (c : Char) (t : List Char) :
    dropTrailingWs (c :: t) =
      if (dropTrailingWs t).isEmpty && pySpace c then [] else c :: dropTrailingWs t := rfl

theorem dtw_sublist (l : List Char) : (dropTrailingWs l).Sublist l := by
  induction l with
  | nil => exact List.Sublist.refl _
  | cons c t ih =>
    rw [dtw_cons]
    by_cases hb : ((dropTrailingWs t).isEmpty && pySpace c) = true
    · rw [if_pos hb]
      exact List.nil_sublist _
    · rw [if_neg (by simpa using hb)]
      exact ih.cons₂ c

theorem dtw_head_eq {t : List Char} {d : Char} {r : List Char}
    (h : dropTrailingWs t = d :: r) : ∃ t', t = d :: t' := by
  cases t with
  | nil => cases h
  | cons e t2 =>
    rw [dtw_cons] at h
    by_cases hb : ((dropTrailingWs t2).isEmpty && pySpace e) = true
    · rw [if_pos hb] at h
      cases h
    · rw [if_neg (by simpa using hb)] at h
      injection h with h1 _
      exact ⟨t2, by rw [h1]⟩

theorem headNotWs_dtw {l : List Char} (h : headNotWs l = true) :
    headNotWs (dropTrailingWs l) = true := by
  cases l with
  | nil => rfl
  | cons c t =>
    rw [dtw_cons]
    by_cases hb : ((dropTrailingWs t).isEmpty && pySpace c) = true
    · rw [if_pos hb]
      rfl
    · rw [if_neg (by simpa using hb)]
      exact h

theorem noDoubleWs_dtw : ∀ {l : List Char}, noDoubleWs l = true →
    noDoubleWs (dropTrailingWs l) = true := by
  intro l
  induction l with
  | nil => exact fun h => h
  | cons c t ih =>
    intro h
    rw [dtw_cons]
    by_cases hb : ((dropTrailingWs t).isEmpty && pySpace c) = true
    · rw [if_pos hb]
      rfl
    · rw [if_neg (by simpa using hb)]
      rw [noDoubleWs_cons, Bool.and_eq_true]
      refine ⟨?_, ih (noDoubleWs_of_cons h)⟩
      cases hr : dropTrailingWs t with
      | nil => rfl
      | cons d r =>
        obtain ⟨t', ht'⟩ := dtw_head_eq hr
        subst ht'
        rw [noDoubleWs_cons, Bool.and_eq_true] at h
        simpa [okPair] using h.1

theorem lastNotWs_dtw : ∀ (l : List Char), lastNotWs (dropTrailingWs l) = true
  | [] => rfl
  | c :: t => by
    rw [dtw_cons]
    by_cases hb : ((dropTrailingWs t).isEmpty && pySpace c) = true
    · rw [if_pos hb]
      rfl
    · rw [if_neg (by simpa using hb)]
      cases hr : dropTrailingWs t with
      | nil =>
        have hc : pySpace c = false := by
          simp only [hr, List.isEmpty_nil, Bool.true_and] at hb
          simpa using hb
        simp [lastNotWs, hc]
      | cons d r =>
        rw [lastNotWs_cons_cons]
        rw [← hr]
        exact lastNotWs_dtw t

theorem dtw_fix : ∀ {l : List Char}, lastNotWs l = true → dropTrailingWs l = l := by
  intro l
  induction l with
  | nil => exact fun _ => rfl
  | cons c t ih =>
    intro h
    cases t with
    | nil =>
      simp only [lastNotWs, Bool.not_eq_true'] at h
      rw [dtw_cons]
      simp [dropTrailingWs, h]
    | cons d t' =>
      rw [lastNotWs_cons_cons] at h
      have := ih h
      rw [dtw_cons, this]
      simp

theorem stripWs_fix {l : List Char} (h1 : headNotWs l = true) (h2 : lastNotWs l = true) :
    stripWs l = l := by
  unfold stripWs
  rw [dropWhile_fix h1, dtw_fix h2]

theorem stripWs_sublist (l : List Char) : (stripWs l).Sublist l :=
  (dtw_sublist _).trans (dropWhile_sublist_self l)

/-! ## `clean_label` is idempotent -/

theorem cleanCore_props (l : List Char) :
    wsAllSpace (cleanCore l) = true ∧ noDoubleWs (cleanCore l) = true ∧
      headNotWs (cleanCore l) = true ∧ lastNotWs (cleanCore l) = true := by
  unfold cleanCore stripWs
  refine ⟨?_, ?_, ?_, ?_⟩
  · refine wsAllSpace_sublist ((dtw_sublist _).trans (dropWhile_sublist_self _)) ?_
    exact wsAllSpace_collapseWsGo false (removeTags l)
  · exact noDoubleWs_dtw (noDoubleWs_dropWhile (collapseWsGo_props (removeTags l)).1)
  · exact headNotWs_dtw (headNotWs_dropWhile _)
  · exact lastNotWs_dtw _

theorem cleanCore_tagFree {l : List Char} (h : hasLtNlGt l = false) :
    hasTagMatch (cleanCore l) = false := by
  unfold cleanCore stripWs
  refine hasTagMatch_sublist_false ((dtw_sublist _).trans (dropWhile_sublist_self _)) ?_
  exact hasTagMatch_collapseWs (hasTagMatch_removeTags h)

theorem cleanCore_fix {l : List Char} (h1 : hasTagMatch l = false)
    (h2 : wsAllSpace l = true) (h3 : noDoubleWs l = true) (h4 : headNotWs l = true)
    (h5 : lastNotWs l = true) : cleanCore l = l := by
  unfold cleanCore collapseWs
  rw [removeTags_of_tagFree h1, (collapseWsGo_fix l h2 h3).1, stripWs_fix h4 h5]

theorem cleanCore_idem {l : List Char} (h : hasLtNlGt l = false) :
    cleanCore (cleanCore l) = cleanCore l := by
  obtain ⟨h2, h3, h4, h5⟩ := cleanCore_props l
  exact cleanCore_fix (cleanCore_tagFree h) h2 h3 h4 h5

theorem clean_label_eq_cleanCore (s : String) :
    clean_label (some s) = some ⟨cleanCore s.data⟩ := rfl

/-! ## Claims -/

/-- C1: the claim says that when a theme's score or maturity column is
absent from the dataset schema, the Scope Summary returns null mean/tier and
the Facility Table returns an empty aggregate set instead of raising.  The
code instead raises: `dfc[s_col]` is a `KeyError` when the score column is
missing, and `dropna(subset=[m_col])` is a `KeyError` when the maturity
column is missing.  This theorem evaluates both operations at such inputs
and shows they error. -/
theorem claim1_missing_column_raises :
    showThemeSummaryBanner c1dfNoScore "Summary" "All" "All"
      = Except.error ("KeyError: " ++ OVERALL_SCORE_COL) ∧
    facilityMaturityTable c1dfNoMaturity "Summary"
      = Except.error ("KeyError: " ++ OVERALL_MATURITY_COL) :=
  ⟨by decide, by decide⟩

/-- C3: the claim says that duplicate cleaned labels are resolved
last-write-wins.  The code's `to_dict(orient="index")` instead raises
`ValueError` whenever the cleaned-label index is not unique among entries
surviving `dropna(how="all")`; this theorem evaluates the resolver at a
dictionary with a duplicated cleaned label (both rows kept) and shows
it errors rather than keeping the last occurrence. -/
theorem claim3_duplicate_label_raises :
    buildDdMap c3dd
      = Except.error "ValueError: DataFrame index must be unique for orient='index'." := by
  decide

/-- C5: on an empty row set the Scope Summary yields a null mean score and a
null maturity tier and cannot raise: the first conjunct evaluates the
summary on the (empty) series of any empty dataset; the second runs the
whole banner operation (whose `Except` layer carries every raise the source
can produce) on an empty dataset with the theme's columns present and shows
it returns `ok` with null score and tier for the county scope and for the
subcounty scope when one is selected. -/
theorem claim5_empty_scope_null :
    (∀ (df : DF) (sCol mCol : String), df.rows = [] →
      renderScopeSummary (df.rows.map fun r => getCell df.cols r sCol)
        (df.rows.map fun r => getCell df.cols r mCol) = (none, none)) ∧
    (∀ (df : DF) (theme county subcounty s_col m_col : String),
      THEME_SCORE_COLS.lookup theme = some s_col →
      THEME_MATURITY_COLS.lookup theme = some m_col →
      df.cols.contains s_col = true → df.cols.contains m_col = true →
      df.cols.contains COUNTY_COL = true → df.rows = [] →
      showThemeSummaryBanner df theme county subcounty
        = Except.ok ((none, none),
            if subcounty != "All" && df.cols.contains SUBCOUNTY_COL
            then some (none, none) else none)) := by
  constructor
  · intro df sCol mCol h
    rw [h]
    rfl
  · intro df theme county subcounty s_col m_col h1 h2 h3 h4 h5 h6
    have hdfc : (if county != "All" then filterEq df COUNTY_COL county else df)
        = { cols := df.cols, rows := [] } := by
      by_cases hc : (county != "All") = true
      · simp only [hc, if_true, filterEq, h6]
        rfl
      · simp only [hc, Bool.false_eq_true, if_false]
        rw [← h6]
    simp only [showThemeSummaryBanner, h1, h2, h5, Bool.not_true, Bool.and_false,
      Bool.false_eq_true, if_false, hdfc]
    have hcol : DF.cols { cols := df.cols, rows := ([] : List (List Cell)) } = df.cols := rfl
    simp only [getColumn, hcol, h3, h4, if_true, List.map_nil]
    by_cases hsub : (subcounty != "All" && df.cols.contains SUBCOUNTY_COL) = true
    · simp only [hsub, if_true]
      simp [filterEq, h6, renderScopeSummary]
    · simp only [hsub, Bool.false_eq_true, if_false]
      simp [renderScopeSummary]

/-- C5 witness: the empty-scope summary at a concrete empty dataset. -/
theorem claim5_witness :
    renderScopeSummary
      (c5df.rows.map fun r => getCell c5df.cols r OVERALL_SCORE_COL)
      (c5df.rows.map fun r => getCell c5df.cols r OVERALL_MATURITY_COL) = (none, none) ∧
    showThemeSummaryBanner c5df "Summary" "All" "All" = Except.ok ((none, none), none) := by
  constructor
  · exact claim5_empty_scope_null.1 c5df OVERALL_SCORE_COL OVERALL_MATURITY_COL rfl
  · exact claim5_empty_scope_null.2 c5df "Summary" "All" "All"
      OVERALL_SCORE_COL OVERALL_MATURITY_COL rfl rfl (by decide) (by decide) (by decide) rfl

/-- C7 counterexample: the Label Normalizer is not idempotent on every
input.  For the label `"<a\nb>"` the tag body spans a newline, which
`re.sub("<.*?>", "", ·)` cannot match (`.` excludes `'\n'`); the first pass
only collapses the newline to a space, giving `"<a b>"`, and a second pass
then removes the now-matchable tag, giving `""`. -/
theorem claim7_counterexample :
    clean_label (some "<a\nb>") = some "<a b>" ∧
    clean_label (some "<a b>") = some "" ∧
    clean_label (clean_label (some "<a\nb>")) ≠ clean_label (some "<a\nb>") :=
  ⟨by decide, by decide, by decide⟩

/-- C7 (amended): the Label Normalizer is idempotent on the missing marker
and on every label containing no split tag — no `'<'` followed later by a
newline and then a `'>'` — which covers in particular every newline-free
label; and an already-clean label (no `<...>` markup match, every
whitespace character a plain space, no adjacent whitespace, no leading or
trailing whitespace) is returned unchanged.  Labels with a tag spanning a
newline are the one exception, per `claim7_counterexample`. -/
theorem claim7_clean_label_idempotent :
    clean_label (clean_label none) = clean_label none ∧
    (∀ s : String, hasLtNlGt s.data = false →
      clean_label (clean_label (some s)) = clean_label (some s)) ∧
    (∀ s : String, hasTagMatch s.data = false → wsAllSpace s.data = true →
      noDoubleWs s.data = true → headNotWs s.data = true → lastNotWs s.data = true →
      clean_label (some s) = some s) := by
  refine ⟨rfl, ?_, ?_⟩
  · intro s h
    show (some ⟨cleanCore (cleanCore s.data)⟩ : Option String) = some ⟨cleanCore s.data⟩
    rw [cleanCore_idem h]
  · intro s h1 h2 h3 h4 h5
    rw [clean_label_eq_cleanCore, cleanCore_fix h1 h2 h3 h4 h5]

/-- C7 witness: idempotence at a concrete split-tag-free label and the
fixed-point property at a concrete already-clean label. -/
theorem claim7_witness :
    clean_label (clean_label (some "  a  <b> c ")) = clean_label (some "  a  <b> c ") ∧
    clean_label (some "Fridge temperature log") = some "Fridge temperature log" := by
  constructor
  · exact claim7_clean_label_idempotent.2.1 "  a  <b> c " (by decide)
  · exact claim7_clean_label_idempotent.2.2 "Fridge temperature log"
      (by decide) (by decide) (by decide) (by decide) (by decide)


/-- C2: the Scope Summary tier is the arithmetic mean of the non-missing
maturity values, rounded half-to-even (Python's builtin `round`), mapped
through the fixed tier table; the table sends 1 to Bronze, 2 to Silver and
3 to Gold; and any non-empty maturity series whose mean is exactly 5/2
yields the tier "Silver" (2.5 rounds down to the even integer 2). -/
theorem claim2_tier_round_half_even :
    (∀ scoreCells matCells : List Cell, matCells.filterMap cellToNum ≠ [] →
      (renderScopeSummary scoreCells matCells).2
        = maturity_label
            ((roundHalfEven (listMean (matCells.filterMap cellToNum)) : ℤ) : ℚ)) ∧
    (maturity_label 1 = some "Bronze" ∧ maturity_label 2 = some "Silver" ∧
      maturity_label 3 = some "Gold") ∧
    (∀ scoreCells matCells : List Cell, matCells.filterMap cellToNum ≠ [] →
      listMean (matCells.filterMap cellToNum) = 5 / 2 →
      (renderScopeSummary scoreCells matCells).2 = some "Silver") := by
  have key : ∀ scoreCells matCells : List Cell, matCells.filterMap cellToNum ≠ [] →
      (renderScopeSummary scoreCells matCells).2
        = maturity_label
            ((roundHalfEven (listMean (matCells.filterMap cellToNum)) : ℤ) : ℚ) := by
    intro sc mc h
    simp only [renderScopeSummary]
    rw [if_neg (by simpa [List.isEmpty_iff] using h)]
  refine ⟨key, ⟨by norm_num [maturity_label], by norm_num [maturity_label],
    by norm_num [maturity_label]⟩, ?_⟩
  intro sc mc h hm
  rw [key sc mc h, hm]
  have h2 : roundHalfEven (5 / 2) = 2 := by norm_num [roundHalfEven]
  rw [h2]
  norm_num [maturity_label]

/-- C2 witness: maturity values 2 and 3 (mean 5/2) produce the tier
"Silver". -/
theorem claim2_witness :
    (renderScopeSummary [] [Cell.n 2, Cell.n 3]).2 = some "Silver" :=
  claim2_tier_round_half_even.2.2 [] [Cell.n 2, Cell.n 3] (by decide)
    (by with_unfolding_all decide)

/-- Two patterns of equal length cannot both be list-level starts of the
same string when they differ. -/
theorem startsWithS_ne {s p q : String} (hlen : q.data.length = p.data.length)
    (h : startsWithS s p = true) (hne : p.data ≠ q.data) : startsWithS s q = false := by
  simp only [startsWithS, startsWithL, beq_iff_eq] at h
  simp only [startsWithS, startsWithL, hlen, h, beq_eq_false_iff_ne]
  exact hne

/-- C6: the Theme Classifier's rules in source order with first match
winning: missing/non-string input gives none; each of the six prefixes
forces its theme (regardless of any "maturity"/"score_pct" occurrence,
since the prefix rules come first); with no prefix match, a case-insensitive
occurrence of "maturity" or "score_pct" gives Summary; and with no rule
matching the result is none. -/
theorem claim6_infer_theme_rules :
    inferTheme none = none ∧
    (∀ s, startsWithS s "sd_" = true → inferTheme (some s) = some "Service Delivery") ∧
    (∀ s, startsWithS s "cc_" = true → inferTheme (some s) = some "Logistics & Cold Chain") ∧
    (∀ s, startsWithS s "dq_" = true → inferTheme (some s) = some "Data Quality") ∧
    (∀ s, startsWithS s "cl_" = true → inferTheme (some s) = some "Community Linkage") ∧
    (∀ s, startsWithS s "hr_" = true → inferTheme (some s) = some "HRH") ∧
    (∀ s, startsWithS s "ss_" = true → inferTheme (some s) = some "Support Supervision") ∧
    (∀ s, startsWithS s "sd_" = false → startsWithS s "cc_" = false →
      startsWithS s "dq_" = false → startsWithS s "cl_" = false →
      startsWithS s "hr_" = false → startsWithS s "ss_" = false →
      (containsSub "maturity".data (pyLower s).data
        || containsSub "score_pct".data (pyLower s).data) = true →
      inferTheme (some s) = some "Summary") ∧
    (∀ s, startsWithS s "sd_" = false → startsWithS s "cc_" = false →
      startsWithS s "dq_" = false → startsWithS s "cl_" = false →
      startsWithS s "hr_" = false → startsWithS s "ss_" = false →
      (containsSub "maturity".data (pyLower s).data
        || containsSub "score_pct".data (pyLower s).data) = false →
      inferTheme (some s) = none) := by
  refine ⟨rfl, ?_, ?_, ?_, ?_, ?_, ?_, ?_, ?_⟩
  · intro s h
    simp only [inferTheme, h, if_true]
  · intro s h
    have e1 : startsWithS s "sd_" = false := startsWithS_ne (by decide) h (by decide)
    simp only [inferTheme, e1, h, Bool.false_eq_true, if_false, if_true]
  · intro s h
    have e1 : startsWithS s "sd_" = false := startsWithS_ne (by decide) h (by decide)
    have e2 : startsWithS s "cc_" = false := startsWithS_ne (by decide) h (by decide)
    simp only [inferTheme, e1, e2, h, Bool.false_eq_true, if_false, if_true]
  · intro s h
    have e1 : startsWithS s "sd_" = false := startsWithS_ne (by decide) h (by decide)
    have e2 : startsWithS s "cc_" = false := startsWithS_ne (by decide) h (by decide)
    have e3 : startsWithS s "dq_" = false := startsWithS_ne (by decide) h (by decide)
    simp only [inferTheme, e1, e2, e3, h, Bool.false_eq_true, if_false, if_true]
  · intro s h
    have e1 : startsWithS s "sd_" = false := startsWithS_ne (by decide) h (by decide)
    have e2 : startsWithS s "cc_" = false := startsWithS_ne (by decide) h (by decide)
    have e3 : startsWithS s "dq_" = false := startsWithS_ne (by decide) h (by decide)
    have e4 : startsWithS s "cl_" = false := startsWithS_ne (by decide) h (by decide)
    simp only [inferTheme, e1, e2, e3, e4, h, Bool.false_eq_true, if_false, if_true]
  · intro s h
    have e1 : startsWithS s "sd_" = false := startsWithS_ne (by decide) h (by decide)
    have e2 : startsWithS s "cc_" = false := startsWithS_ne (by decide) h (by decide)
    have e3 : startsWithS s "dq_" = false := startsWithS_ne (by decide) h (by decide)
    have e4 : startsWithS s "cl_" = false := startsWithS_ne (by decide) h (by decide)
    have e5 : startsWithS s "hr_" = false := startsWithS_ne (by decide) h (by decide)
    simp only [inferTheme, e1, e2, e3, e4, e5, h, Bool.false_eq_true, if_false, if_true]
  · intro s h1 h2 h3 h4 h5 h6 hsub
    simp only [inferTheme, h1, h2, h3, h4, h5, h6, hsub, Bool.false_eq_true, if_false, if_true]
  · intro s h1 h2 h3 h4 h5 h6 hsub
    simp only [inferTheme, h1, h2, h3, h4, h5, h6, hsub, Bool.false_eq_true, if_false]

/-- C6 witness: one concrete variable name per rule, including a prefixed
name containing "maturity" (prefix precedence) and a name matching no
rule. -/
theorem claim6_witness :
    inferTheme none = none ∧
    inferTheme (some "sd_maturity") = some "Service Delivery" ∧
    inferTheme (some "cc_fridge") = some "Logistics & Cold Chain" ∧
    inferTheme (some "dq_x") = some "Data Quality" ∧
    inferTheme (some "cl_x") = some "Community Linkage" ∧
    inferTheme (some "hr_x") = some "HRH" ∧
    inferTheme (some "ss_x") = some "Support Supervision" ∧
    inferTheme (some "Overall_MATURITY") = some "Summary" ∧
    inferTheme (some "county") = none :=
  ⟨claim6_infer_theme_rules.1,
   claim6_infer_theme_rules.2.1 _ (by decide),
   claim6_infer_theme_rules.2.2.1 _ (by decide),
   claim6_infer_theme_rules.2.2.2.1 _ (by decide),
   claim6_infer_theme_rules.2.2.2.2.1 _ (by decide),
   claim6_infer_theme_rules.2.2.2.2.2.1 _ (by decide),
   claim6_infer_theme_rules.2.2.2.2.2.2.1 _ (by decide),
   claim6_infer_theme_rules.2.2.2.2.2.2.2.1 _ (by decide) (by decide) (by decide)
     (by decide) (by decide) (by decide) (by decide),
   claim6_infer_theme_rules.2.2.2.2.2.2.2.2 _ (by decide) (by decide) (by decide)
     (by decide) (by decide) (by decide) (by decide)⟩

/-- The categorical and open-ended type lists are disjoint, so the two flags
computed from one field type cannot both hold. -/
theorem flags_exclusive (ft : Option String) :
    ¬((match ft with | some t => catTypes.contains t | none => false) = true ∧
      (match ft with | some t => txtTypes.contains t | none => false) = true) := by
  rintro ⟨h1, h2⟩
  cases ft with
  | none => cases h1
  | some t =>
    simp only at h1 h2
    simp [catTypes] at h1
    rcases h1 with h | h | h | h <;> subst h <;> simp [txtTypes] at h2

/-- C9: no `ColumnMeta` produced by the Column Metadata Builder has both
`is_categorical` and `is_open_ended` set, whatever the dictionary holds. -/
theorem claim9_flags_mutually_exclusive :
    ∀ (cols : List String) (m : List (Option String × Option String × Option String))
      (meta : ColumnMeta), meta ∈ buildMeta cols m →
      ¬(meta.is_categorical = true ∧ meta.is_open_ended = true) := by
  intro cols m meta hm h
  unfold buildMeta at hm
  obtain ⟨c, _, rfl⟩ := List.mem_map.mp hm
  obtain ⟨hc, ho⟩ := h
  simp only [columnMeta] at hc ho
  exact flags_exclusive _ ⟨hc, ho⟩

/-- C9 witness: the invariant at a concretely built metadata row. -/
theorem claim9_witness :
    ¬((columnMeta c4map "cc_fridge_temp (choice=Yes)").is_categorical = true ∧
      (columnMeta c4map "cc_fridge_temp (choice=Yes)").is_open_ended = true) :=
  claim9_flags_mutually_exclusive ["cc_fridge_temp (choice=Yes)"] c4map _ (by decide)

/-- C10: the binary-response normalization of `show_categorical_chart`:
missing responses map to none; a response whose trimmed lowercased form is a
yes-form maps to "Yes"; a no-form maps to "No"; a response trimming to the
empty string maps to none; anything else is returned unchanged. -/
theorem claim10_normalize_responses :
    normalizeResp none = none ∧
    (∀ v : String,
      (pyLower ⟨stripWs v.data⟩ = "yes" ∨ pyLower ⟨stripWs v.data⟩ = "y" ∨
        pyLower ⟨stripWs v.data⟩ = "1") →
      normalizeResp (some v) = some "Yes") ∧
    (∀ v : String,
      (pyLower ⟨stripWs v.data⟩ = "no" ∨ pyLower ⟨stripWs v.data⟩ = "n" ∨
        pyLower ⟨stripWs v.data⟩ = "0") →
      normalizeResp (some v) = some "No") ∧
    (∀ v : String, pyLower ⟨stripWs v.data⟩ = "" → normalizeResp (some v) = none) ∧
    (∀ v : String,
      ¬(pyLower ⟨stripWs v.data⟩ = "yes" ∨ pyLower ⟨stripWs v.data⟩ = "y" ∨
        pyLower ⟨stripWs v.data⟩ = "1") →
      ¬(pyLower ⟨stripWs v.data⟩ = "no" ∨ pyLower ⟨stripWs v.data⟩ = "n" ∨
        pyLower ⟨stripWs v.data⟩ = "0") →
      pyLower ⟨stripWs v.data⟩ ≠ "" →
      normalizeResp (some v) = some v) := by
  refine ⟨rfl, ?_, ?_, ?_, ?_⟩
  · intro v h
    simp only [normalizeResp]
    rw [if_pos h]
  · intro v h
    have hy : ¬(pyLower ⟨stripWs v.data⟩ = "yes" ∨ pyLower ⟨stripWs v.data⟩ = "y" ∨
        pyLower ⟨stripWs v.data⟩ = "1") := by
      rcases h with h | h | h <;> rw [h] <;> decide
    simp only [normalizeResp]
    rw [if_neg hy, if_pos h]
  · intro v h
    simp [normalizeResp, h]
  · intro v hy hn he
    simp only [normalizeResp]
    rw [if_neg hy, if_neg hn, if_neg he]

/-- C10 witness: one concrete response per rule. -/
theorem claim10_witness :
    normalizeResp none = none ∧
    normalizeResp (some "  YES ") = some "Yes" ∧
    normalizeResp (some " n") = some "No" ∧
    normalizeResp (some "   ") = none ∧
    normalizeResp (some "Maybe") = some "Maybe" :=
  ⟨claim10_normalize_responses.1,
   claim10_normalize_responses.2.1 _ (by decide),
   claim10_normalize_responses.2.2.1 _ (by decide),
   claim10_normalize_responses.2.2.2.1 _ (by decide),
   claim10_normalize_responses.2.2.2.2 _ (by decide) (by decide) (by decide)⟩


/-- C4: for a retained column the base label is the column name truncated at
the literal "(choice=" and trimmed; the dictionary is consulted first by the
base label and, only on a miss, by the raw column name; when both lookups
miss, field type and theme are absent and both flags are false.  The last
conjunct is the end-to-end scenario: a column "cc_fridge_temp (choice=Yes)"
with a dictionary entry named and labelled "cc_fridge_temp" of type "yesno"
resolves via the base label to a categorical column with theme
"Logistics & Cold Chain". -/
theorem claim4_column_lookup :
    (∀ (m : List (Option String × Option String × Option String)) (col : String),
      (columnMeta m col).base_label = baseLabel col) ∧
    (∀ (m : List (Option String × Option String × Option String)) (col : String) v,
      lookupLabel m (baseLabel col) = some v →
      (columnMeta m col).field_type = v.1 ∧ (columnMeta m col).theme = v.2) ∧
    (∀ (m : List (Option String × Option String × Option String)) (col : String) v,
      lookupLabel m (baseLabel col) = none → lookupLabel m col = some v →
      (columnMeta m col).field_type = v.1 ∧ (columnMeta m col).theme = v.2) ∧
    (∀ (m : List (Option String × Option String × Option String)) (col : String),
      lookupLabel m (baseLabel col) = none → lookupLabel m col = none →
      (columnMeta m col).field_type = none ∧ (columnMeta m col).theme = none ∧
      (columnMeta m col).is_categorical = false ∧ (columnMeta m col).is_open_ended = false) ∧
    (buildDdMap c4dd = Except.ok c4map ∧
      (columnMeta c4map "cc_fridge_temp (choice=Yes)").base_label = "cc_fridge_temp" ∧
      (columnMeta c4map "cc_fridge_temp (choice=Yes)").field_type = some "yesno" ∧
      (columnMeta c4map "cc_fridge_temp (choice=Yes)").is_categorical = true ∧
      (columnMeta c4map "cc_fridge_temp (choice=Yes)").theme
        = some "Logistics & Cold Chain") := by
  refine ⟨?_, ?_, ?_, ?_, by decide, by decide, by decide, by decide, by decide⟩
  · intro m col
    rfl
  · intro m col v h
    simp [columnMeta, h, Option.orElse]
  · intro m col v h1 h2
    simp [columnMeta, h1, h2, Option.orElse]
  · intro m col h1 h2
    simp [columnMeta, h1, h2, Option.orElse]

/-- C4 witness: the conditional parts applied at concrete inputs — a hit by
base label, a hit only by raw name, and a double miss. -/
theorem claim4_witness :
    ((columnMeta c4map "cc_fridge_temp (choice=Yes)").field_type = some "yesno" ∧
      (columnMeta c4map "cc_fridge_temp (choice=Yes)").theme
        = some "Logistics & Cold Chain") ∧
    ((columnMeta [(some " padded ", some "text", none)] " padded ").field_type = some "text" ∧
      (columnMeta [(some " padded ", some "text", none)] " padded ").theme = none) ∧
    ((columnMeta [] "unknown col").field_type = none ∧
      (columnMeta [] "unknown col").theme = none ∧
      (columnMeta [] "unknown col").is_categorical = false ∧
      (columnMeta [] "unknown col").is_open_ended = false) :=
  ⟨claim4_column_lookup.2.1 c4map "cc_fridge_temp (choice=Yes)"
      (some "yesno", some "Logistics & Cold Chain") (by decide),
   claim4_column_lookup.2.2.1 [(some " padded ", some "text", none)] " padded "
      (some "text", none) (by decide) (by decide),
   claim4_column_lookup.2.2.2.1 [] "unknown col" (by decide) (by decide)⟩

/-- C8: whenever the facility table succeeds, its rows are in descending
order of mean score (a missing mean ranking below every number, as pandas
places NaN last), and in particular every group with mean score 85 precedes
every group with mean score 60. -/
theorem claim8_facility_table_sorted :
    ∀ (df : DF) (theme : String) (out : List AggRow),
      facilityMaturityTable df theme = Except.ok out →
      out.Sorted aggLE ∧
      ∀ (i j : Fin out.length), (out.get i).score = some 85 →
        (out.get j).score = some 60 → (i : ℕ) < (j : ℕ) := by
  intro df theme out h
  have hs : out.Sorted aggLE := by
    unfold facilityMaturityTable at h
    split at h
    · exact absurd h (by simp)
    split at h
    · exact absurd h (by simp)
    dsimp only at h
    split at h
    · exact absurd h (by simp)
    split at h
    · exact absurd h (by simp)
    injection h with h
    rw [← h]
    exact List.sorted_insertionSort aggLE _
  refine ⟨hs, ?_⟩
  intro i j hi hj
  by_contra hij
  rcases Nat.lt_or_eq_of_le (Nat.le_of_not_lt hij) with hlt | heq
  · have hrel := hs.rel_get_of_lt (show j < i from Fin.lt_def.mpr hlt)
    simp only [aggLE, scoreKey, hi, hj] at hrel
    rw [WithBot.coe_le_coe] at hrel
    norm_num at hrel
  · have hije : i = j := Fin.ext heq.symm
    rw [hije, hj] at hi
    injection hi with hi
    norm_num at hi

/-- C8 witness: a concrete two-facility dataset with mean scores 85 and 60;
the table is computed, is sorted, and the 85 group is at index 0, before the
60 group at index 1. -/
theorem claim8_witness :
    facilityMaturityTable c8df "Summary" = Except.ok c8out ∧
    c8out.Sorted aggLE ∧ (0 : ℕ) < (1 : ℕ) := by
  have h : facilityMaturityTable c8df "Summary" = Except.ok c8out := by
    simp [facilityMaturityTable, c8df, c8out, THEME_SCORE_COLS, THEME_MATURITY_COLS,
      COUNTY_COL, FACILITY_COL, SUBCOUNTY_COL, OVERALL_SCORE_COL, OVERALL_MATURITY_COL,
      getCell, firstKeys, firstKeysAux, maturityLabelCell, maturity_label, cellToNum,
      listMean, MATURITY_ICONS, aggLE, scoreKey, List.insertionSort, List.orderedInsert,
      List.lookup, List.findIdx?, List.filter, List.filterMap, List.map]
    with_unfolding_all decide
  refine ⟨h, (claim8_facility_table_sorted c8df "Summary" c8out h).1, ?_⟩
  exact (claim8_facility_table_sorted c8df "Summary" c8out h).2
    ⟨0, by decide⟩ ⟨1, by decide⟩ rfl rfl

end Dashboard
